import Mathlib

/-
Verification of the Beijing Mahjong Monte-Carlo simulator core.

Shallow embedding conventions:
- Machine floats of the source become exact rationals (for profits, risks,
  hand qualities) or reals (for the sqrt-based utility transform).
- Every random draw of the source (numpy or the private policy generator)
  becomes an explicit input: uniform draws are rational numbers compared
  against the same thresholds as in the source, and each categorical
  selection receives the chosen index as an oracle natural number
  (reduced modulo the candidate-list length).
- The utility entry of each result record equals, in every branch of the
  source, compute_utility applied to the profit and flag entries of that
  same record, so it is presented as a derived field; all remaining
  fields are computable data.
-/

namespace MahjongSim

/-- Configuration keys consulted by the round resolvers (cfg dict). -/
structure SimCfg where
  base_points : ℚ
  penalty_deal_in : ℚ
deriving DecidableEq

/-- scoring.compute_score: base_points * 2 ^ fan. -/
def compute_score (fan : ℕ) (base_points : ℚ) : ℚ :=
  base_points * 2 ^ fan

/-- scoring.compute_winner_profit: score*3 on self-draw, score on deal-in,
and the self-draw formula as the documented fallback when neither flag is set. -/
def compute_winner_profit (score : ℚ) (is_self_draw : Bool) (deal_in_occurred : Bool) : ℚ :=
  if is_self_draw then score * 3
  else if deal_in_occurred then score
  else score * 3

/-- scoring.compute_loser_cost: -score*penalty_multiplier for the seat that
dealt in, -score when the opponent self-drew. -/
def compute_loser_cost (score : ℚ) (penalty_multiplier : ℚ) (is_deal_in_loser : Bool) : ℚ :=
  if is_deal_in_loser then -score * penalty_multiplier else -score

/-- scoring.compute_total_fan: base fan plus kong bonuses, capped. -/
def compute_total_fan (base_fan kong_count max_total_fan : ℕ) : ℕ :=
  min (base_fan + kong_count) max_total_fan

/-- strategies.defensive_strategy: accept iff fan is at least fan_min. -/
def defensive_strategy (fan : ℕ) (fan_min : ℕ) : Bool :=
  decide (fan_min ≤ fan)

/-- strategies.aggressive_strategy: accept iff fan is at least threshold. -/
def aggressive_strategy (fan : ℕ) (threshold : ℕ) : Bool :=
  decide (threshold ≤ fan)

/-- simulation.compute_utility with the default penalties 0.2 and 0.5 used
at every call site of the source: sqrt reward for positive profit, negated
sqrt of the absolute value for negative profit, zero at zero, then the two
flag penalties are subtracted. -/
noncomputable def compute_utility (profit : ℝ) (missed_hu : Bool) (deal_in_as_loser : Bool) : ℝ :=
  (if 0 < profit then Real.sqrt profit
   else if profit < 0 then -Real.sqrt |profit| else 0)
  - (if missed_hu then (0.2 : ℝ) else 0)
  - (if deal_in_as_loser then (0.5 : ℝ) else 0)

/-- simulation.DEALER_READY_THRESHOLD = 0.6. -/
def DEALER_READY_THRESHOLD : ℚ := 3 / 5

/-- players.NeutralPolicy: the private generator random.Random(seed) is a
deterministic stream of draws in [0,1); the state is that stream together
with the position of the next draw. -/
structure NeutralPolicy where
  stream : ℕ → ℚ
  pos : ℕ

/-- NeutralPolicy construction from a seed: random.Random(seed) is a pure
function of the seed, modelled by an arbitrary seed-to-stream map gen. -/
def NeutralPolicy.ofSeed (gen : ℕ → ℕ → ℚ) (seed : ℕ) : NeutralPolicy :=
  ⟨gen seed, 0⟩

/-- players.NeutralPolicy.should_hu: accept on risk > 0.4, else on fan >= 1,
else accept exactly when the next private draw is at least 0.2 (consuming
that draw). Returns the decision and the successor state. -/
def NeutralPolicy.shouldHu (p : NeutralPolicy) (fan : ℕ) (risk : ℚ) : Bool × NeutralPolicy :=
  if (2 / 5 : ℚ) < risk then (true, p)
  else if 1 ≤ fan then (true, p)
  else (decide ((1 / 5 : ℚ) ≤ p.stream p.pos), ⟨p.stream, p.pos + 1⟩)

/-- Decision sequence of a NeutralPolicy over a list of (fan, risk) calls. -/
def NeutralPolicy.decisions : NeutralPolicy → List (ℕ × ℚ) → List Bool
  | _, [] => []
  | p, c :: rest =>
      (p.shouldHu c.1 c.2).1 :: (p.shouldHu c.1 c.2).2.decisions rest

/-- Result record of one round for one seat (the result dict minus the
derived utility entry). -/
structure RoundOutcome where
  profit : ℚ
  fan : ℕ
  won : Bool
  deal_in_as_winner : Bool
  deal_in_as_loser : Bool
  missed_hu : Bool
deriving DecidableEq

instance : Inhabited RoundOutcome :=
  ⟨⟨0, 0, false, false, false, false⟩⟩

/-- The utility entry of a result record: in every branch of the source it
is compute_utility applied to the profit and flag entries of the record. -/
noncomputable def RoundOutcome.utility (o : RoundOutcome) : ℝ :=
  compute_utility (o.profit : ℝ) o.missed_hu o.deal_in_as_loser

/-- Random draws consumed by one call of simulation.simulate_round:
Q and R are the Beta draws, uComplete the uniform draw of
can_complete_hand, baseFan and kong the hand draws, uDeal the uniform
draw that decides the Bernoulli(R) event of whichever branch runs, and
oppBaseFan and oppKong the opponent hand draws of the missed branch. -/
structure RoundRand where
  Q : ℚ
  R : ℚ
  uComplete : ℚ
  baseFan : ℕ
  kong : ℕ
  uDeal : ℚ
  oppBaseFan : ℕ
  oppKong : ℕ

/-- simulation.simulate_round, with all random draws passed in. -/
def simulate_round (player_strategy : ℕ → Bool) (cfg : SimCfg) (r : RoundRand) : RoundOutcome :=
  if decide (r.uComplete < r.Q) = false then
    { profit := 0, fan := 0, won := false, deal_in_as_winner := false,
      deal_in_as_loser := false, missed_hu := false }
  else
    if player_strategy (compute_total_fan r.baseFan r.kong 16) = false then
      { profit :=
          if decide (r.uDeal < r.R) then
            compute_loser_cost
              (compute_score (compute_total_fan r.oppBaseFan r.oppKong 16) cfg.base_points)
              cfg.penalty_deal_in true
          else 0,
        fan := 0, won := false, deal_in_as_winner := false,
        deal_in_as_loser := decide (r.uDeal < r.R), missed_hu := true }
    else
      if decide (r.uDeal < r.R) then
        { profit :=
            compute_winner_profit
              (compute_score (compute_total_fan r.baseFan r.kong 16) cfg.base_points) false true,
          fan := compute_total_fan r.baseFan r.kong 16, won := true,
          deal_in_as_winner := true, deal_in_as_loser := false, missed_hu := false }
      else
        { profit :=
            compute_winner_profit
              (compute_score (compute_total_fan r.baseFan r.kong 16) cfg.base_points) true false,
          fan := compute_total_fan r.baseFan r.kong 16, won := true,
          deal_in_as_winner := false, deal_in_as_loser := false, missed_hu := false }

/-- Profit entry of simulation.run_simulation: the sum of per-round profits. -/
def run_simulation_profit (player_strategy : ℕ → Bool) (cfg : SimCfg)
    (rands : List RoundRand) : ℚ :=
  (rands.map (fun r => (simulate_round player_strategy cfg r).profit)).sum

/-- Utility entry of simulation.run_simulation: the per-round utilities are
summed, the sum is clamped below at zero, and the baseline is added. -/
noncomputable def run_simulation_utility (player_strategy : ℕ → Bool) (cfg : SimCfg)
    (rands : List RoundRand) (baseline_utility : ℝ) : ℝ :=
  baseline_utility +
    max 0 ((rands.map (fun r => (simulate_round player_strategy cfg r).utility)).sum)

/-- table.adjust_risk_for_composition: the reduction factor
1 - (num_def_players/4)*0.3 applied to the base risk. -/
def adjust_risk_for_composition (base_risk : ℚ) (num_def_players : ℕ) : ℚ :=
  base_risk * (1 - ((num_def_players : ℚ) / 4) * (3 / 10))

/-- table.adjust_fan_growth_for_composition: inflate the base fan by up to
20 percent for aggressive tables, truncate to an integer, cap at 16. The
source truncates toward zero; the truncated quantity is nonnegative at
every call site, where truncation and floor agree. -/
def adjust_fan_growth_for_composition (base_fan : ℕ) (num_def_players : ℕ) : ℕ :=
  min (Int.toNat
    (Int.floor ((base_fan : ℚ) * (1 + ((4 - (num_def_players : ℚ)) / 4) * (2 / 10))))) 16

/-- Strategy label of a seat. -/
inductive StratType
  | DEF
  | AGG
  | NEU
deriving DecidableEq

/-- A seat of the table: the decision capability covers both shapes found
in the source (a plain strategy called on the fan alone, which ignores the
risk argument, and a policy object whose should_hu receives fan and
adjusted risk), plus the strategy_type label. -/
structure Player where
  strategy : ℕ → ℚ → Bool
  strategy_type : StratType

/-- Random draws consumed for one seat in table.simulate_table_round. -/
structure SeatRand where
  Q : ℚ
  baseR : ℚ
  uComplete : ℚ
  baseFan : ℕ
  kong : ℕ

/-- Random draws consumed by one call of table.simulate_table_round:
per-seat draws, the categorical index of the winner selection, the uniform
draw of the deal-in Bernoulli, and the categorical index of the paying
loser selection. -/
structure TableRand where
  seat : ℕ → SeatRand
  winnerPick : ℕ
  uDeal : ℚ
  loserPick : ℕ

/-- Round metadata returned by table.simulate_table_round alongside the
per-seat results. -/
structure RoundMeta where
  winner_index : Option ℕ
  winner_is_dealer : Bool
  dealer_ready : Bool
  dealer_continues : Bool
  is_draw : Bool
deriving DecidableEq

/-- Number of DEF seats at the table. -/
def numDef (players : ℕ → Player) : ℕ :=
  (List.range 4).countP (fun i => (players i).strategy_type == StratType.DEF)

/-- Per-seat round context computed by the sampling loop of
table.simulate_table_round. -/
structure SeatData where
  can_win : Bool
  strategy_accepts : Bool
  fan : ℕ
  R : ℚ
  Q : ℚ
deriving DecidableEq

/-- One iteration of the per-seat sampling loop: adjust the risk by the
composition factor 1 - theta*0.3, test hand completion against the uniform
draw, and if the hand completes compute the composition-adjusted total fan
and ask the seat strategy for its decision. -/
def mkSeatData (players : ℕ → Player) (num_def : ℕ) (rand : TableRand) (i : ℕ) : SeatData :=
  if decide ((rand.seat i).uComplete < (rand.seat i).Q) then
    { can_win := true,
      strategy_accepts :=
        (players i).strategy
          (compute_total_fan
            (adjust_fan_growth_for_composition (rand.seat i).baseFan num_def)
            (rand.seat i).kong 16)
          ((rand.seat i).baseR * (1 - (((num_def : ℚ) / 4)) * (3 / 10))),
      fan :=
        compute_total_fan
          (adjust_fan_growth_for_composition (rand.seat i).baseFan num_def)
          (rand.seat i).kong 16,
      R := (rand.seat i).baseR * (1 - (((num_def : ℚ) / 4)) * (3 / 10)),
      Q := (rand.seat i).Q }
  else
    { can_win := false, strategy_accepts := false, fan := 0,
      R := (rand.seat i).baseR * (1 - (((num_def : ℚ) / 4)) * (3 / 10)),
      Q := (rand.seat i).Q }

/-- Seat context of seat i for the given roster and draws. -/
def seatData (players : ℕ → Player) (rand : TableRand) (i : ℕ) : SeatData :=
  mkSeatData players (numDef players) rand i

/-- The list of eligible winners: seats whose hand completes and whose
strategy accepts. -/
def eligibleWinners (players : ℕ → Player) (rand : TableRand) : List ℕ :=
  (List.range 4).filter (fun i => (seatData players rand i).strategy_accepts)

/-- Winner-selection weight vector of the source: fan weights normalised by
their total, with a uniform fallback when the total is not positive. -/
def winner_weight_dist (weights : List ℚ) : List ℚ :=
  if weights.sum ≤ 0 then List.replicate weights.length (1 / (weights.length : ℚ))
  else weights.map (fun w => w / weights.sum)

/-- Loser-selection weight vector of the source: risk weights divided by
their sum, with no fallback; a zero sum produces invalid probabilities on
which numpy raises, modelled as none. -/
def loser_weight_dist (weights : List ℚ) : Option (List ℚ) :=
  if weights.sum = 0 then none else some (weights.map (fun w => w / weights.sum))

/-- The winner seat: the unique eligible seat when there is exactly one,
and otherwise the seat at the oracle index of the weighted categorical
selection over the eligible winners. -/
def pickWinner (players : ℕ → Player) (rand : TableRand) : ℕ :=
  if (eligibleWinners players rand).length = 1 then (eligibleWinners players rand).getD 0 0
  else
    (eligibleWinners players rand).getD
      (rand.winnerPick % (eligibleWinners players rand).length) 0

/-- The three seats other than the winner, in seat order. -/
def losersOf (winner : ℕ) : List ℕ :=
  (List.range 4).filter (fun i => i != winner)

/-- The paying loser: the seat at the oracle index of the risk-weighted
categorical selection over the non-winning seats. -/
def pickLoser (winner : ℕ) (pick : ℕ) : ℕ :=
  (losersOf winner).getD (pick % (losersOf winner).length) 0

/-- Risk weights of the three non-winning seats. -/
def losersMapR (players : ℕ → Player) (rand : TableRand) : List ℚ :=
  (losersOf (pickWinner players rand)).map (fun i => (seatData players rand i).R)

/-- Dealer readiness with the bounds guard of the draw branch of the
source: Q of the dealer seat at least the readiness threshold. -/
def dealerReady (players : ℕ → Player) (rand : TableRand) (dealer_index : ℕ) : Bool :=
  if dealer_index < 4 then
    decide (DEALER_READY_THRESHOLD ≤ (seatData players rand dealer_index).Q)
  else false

/-- The missed_hu flag of a seat: its hand completed but its strategy
declined. -/
def missedFlag (players : ℕ → Player) (rand : TableRand) (i : ℕ) : Bool :=
  (seatData players rand i).can_win && !(seatData players rand i).strategy_accepts

/-- Per-seat results of the no-eligible-winner branch. -/
def drawResults (players : ℕ → Player) (rand : TableRand) : List RoundOutcome :=
  (List.range 4).map (fun i =>
    { profit := 0, fan := 0, won := false, deal_in_as_winner := false,
      deal_in_as_loser := false, missed_hu := missedFlag players rand i })

/-- Round metadata of the no-eligible-winner branch: the dealer continues
exactly when its seat was ready. -/
def drawMeta (players : ℕ → Player) (rand : TableRand) (dealer_index : ℕ) : RoundMeta :=
  { winner_index := none, winner_is_dealer := false,
    dealer_ready := dealerReady players rand dealer_index,
    dealer_continues := dealerReady players rand dealer_index, is_draw := true }

/-- Round metadata of the resolved branches: the dealer continues exactly
when the winner seat is the dealer seat. The source reads the dealer Q
without the bounds guard here; call sites keep the index in range. -/
def winMeta (players : ℕ → Player) (rand : TableRand) (dealer_index : ℕ) : RoundMeta :=
  { winner_index := some (pickWinner players rand),
    winner_is_dealer := pickWinner players rand == dealer_index,
    dealer_ready :=
      decide (DEALER_READY_THRESHOLD ≤ (seatData players rand dealer_index).Q),
    dealer_continues := pickWinner players rand == dealer_index, is_draw := false }

/-- Score of the winning hand. -/
def winnerScore (players : ℕ → Player) (cfg : SimCfg) (rand : TableRand) : ℚ :=
  compute_score (seatData players rand (pickWinner players rand)).fan cfg.base_points

/-- Per-seat results of the deal-in branch: the picked loser pays the
deal-in cost and the winner receives its negation; all other seats are
untouched. -/
def dealInResults (players : ℕ → Player) (cfg : SimCfg) (rand : TableRand) : List RoundOutcome :=
  (List.range 4).map (fun i =>
    { profit :=
        (if i = pickLoser (pickWinner players rand) rand.loserPick then
          compute_loser_cost (winnerScore players cfg rand) cfg.penalty_deal_in true
        else 0)
        + (if i = pickWinner players rand then
            -(compute_loser_cost (winnerScore players cfg rand) cfg.penalty_deal_in true)
          else 0),
      fan := if i = pickWinner players rand then
          (seatData players rand (pickWinner players rand)).fan else 0,
      won := i == pickWinner players rand,
      deal_in_as_winner := i == pickWinner players rand,
      deal_in_as_loser := i == pickLoser (pickWinner players rand) rand.loserPick,
      missed_hu := missedFlag players rand i })

/-- Per-seat results of the self-draw branch: every non-winning seat pays
the self-draw cost and the winner receives three negated shares. -/
def selfDrawResults (players : ℕ → Player) (cfg : SimCfg) (rand : TableRand) : List RoundOutcome :=
  (List.range 4).map (fun i =>
    { profit :=
        if i = pickWinner players rand then
          -(compute_loser_cost (winnerScore players cfg rand) cfg.penalty_deal_in false * 3)
        else compute_loser_cost (winnerScore players cfg rand) cfg.penalty_deal_in false,
      fan := if i = pickWinner players rand then
          (seatData players rand (pickWinner players rand)).fan else 0,
      won := i == pickWinner players rand,
      deal_in_as_winner := false,
      deal_in_as_loser := false,
      missed_hu := missedFlag players rand i })

/-- table.simulate_table_round, with all random draws passed in. The
oracle indices stand for the draws of the weighted categorical selections;
the deal-in branch first forms the loser weight vector, whose zero-sum
failure (numpy raising on invalid probabilities) propagates as none. -/
def simulate_table_round (players : ℕ → Player) (cfg : SimCfg) (dealer_index : ℕ)
    (rand : TableRand) : Option (List RoundOutcome × RoundMeta) :=
  if eligibleWinners players rand = [] then
    some (drawResults players rand, drawMeta players rand dealer_index)
  else if rand.uDeal < (seatData players rand (pickWinner players rand)).R then
    match loser_weight_dist (losersMapR players rand) with
    | none => none
    | some _ => some (dealInResults players cfg rand, winMeta players rand dealer_index)
  else
    some (selfDrawResults players cfg rand, winMeta players rand dealer_index)

/-- Dealer seat update of table._run_table: advance by one seat modulo the
player count unless the round metadata says the dealer continues. -/
def nextDealer (dealer_index : ℕ) (meta : RoundMeta) (player_count : ℕ) : ℕ :=
  if meta.dealer_continues then dealer_index else (dealer_index + 1) % player_count

/-- The round loop of table._run_table: run the given rounds in sequence,
threading the dealer seat, and collect each round's per-seat results and
metadata; a failing round propagates as none. -/
def runTableRounds (players : ℕ → Player) (cfg : SimCfg) :
    List TableRand → ℕ → Option (List (List RoundOutcome × RoundMeta))
  | [], _ => some []
  | r :: rs, dealer_index =>
    match simulate_table_round players cfg dealer_index r with
    | none => none
    | some rm =>
      match runTableRounds players cfg rs (nextDealer dealer_index rm.2 4) with
      | none => none
      | some rest => some (rm :: rest)

/-- Per-seat utility summary of table._run_table: the baseline plus the
plain sum of the per-round utilities of that seat (the source applies no
clamp here). -/
noncomputable def tableSeatUtility (baseline_utility : ℝ)
    (rounds : List (List RoundOutcome × RoundMeta)) (i : ℕ) : ℝ :=
  baseline_utility + (rounds.map (fun rm => (rm.1.getD i default).utility)).sum

/-- Per-seat profit summary of table._run_table: the sum of the per-round
profits of that seat. -/
def tableSeatProfit (rounds : List (List RoundOutcome × RoundMeta)) (i : ℕ) : ℚ :=
  (rounds.map (fun rm => (rm.1.getD i default).profit)).sum

/-- A roster of four defensive seats with fan_min 1 (the composition-4
roster built by table.simulate_table). -/
def players1 : ℕ → Player :=
  fun _ => ⟨fun f _ => defensive_strategy f 1, StratType.DEF⟩

/-- Configuration with base_points 1 and penalty_deal_in 1. -/
def cfg1 : SimCfg := ⟨1, 1⟩

/-- Configuration with base_points 1 and penalty_deal_in 3 (the value the
repository tests use). -/
def cfg2 : SimCfg := ⟨1, 3⟩

/-- Table draws: seat 0 completes a 1-fan hand with full base risk, the
other seats fail to complete; the deal-in draw fires and the loser
selection picks seat 1. -/
def rand1 : TableRand :=
  { seat := fun i =>
      if i = 0 then ⟨1, 1, 0, 1, 0⟩ else ⟨0, if i = 1 then 1 else 0, 1, 0, 0⟩,
    winnerPick := 0, uDeal := 0, loserPick := 0 }

/-- Table draws: no seat completes a hand, and the dealer seat has
Q = 7/10, above the readiness threshold. -/
def rand3 : TableRand :=
  { seat := fun i => ⟨if i = 0 then 7 / 10 else 0, 0, 1, 0, 0⟩,
    winnerPick := 0, uDeal := 0, loserPick := 0 }

/-- Table draws: seat 0 completes a 1-fan hand with full base risk and the
deal-in draw fires, while all three other seats have base risk 0, so the
loser-selection weights sum to zero. -/
def rand5 : TableRand :=
  { seat := fun i => if i = 0 then ⟨1, 1, 0, 1, 0⟩ else ⟨0, 0, 1, 0, 0⟩,
    winnerPick := 0, uDeal := 0, loserPick := 0 }

/-- A roster with a NeutralPolicy seat 0 (stream all zeros, position 0)
and three defensive seats. -/
def players6 : ℕ → Player :=
  fun i =>
    if i = 0 then
      ⟨fun fan risk => (NeutralPolicy.shouldHu ⟨fun _ => 0, 0⟩ fan risk).1, StratType.NEU⟩
    else ⟨fun f _ => defensive_strategy f 1, StratType.DEF⟩

/-- Table draws: seat 0 completes a 0-fan hand with adjusted risk 31/40,
above the 0.4 threshold of NeutralPolicy, the other seats fail to
complete, and the deal-in draw does not fire. -/
def rand6 : TableRand :=
  { seat := fun i => if i = 0 then ⟨1, 1, 0, 0, 0⟩ else ⟨0, 0, 1, 0, 0⟩,
    winnerPick := 0, uDeal := 1, loserPick := 0 }

/-- The per-seat results of simulate_table_round players1 cfg1 0 rand1. -/
def res1 : List RoundOutcome :=
  [⟨2, 1, true, true, false, false⟩,
   ⟨-2, 0, false, false, true, false⟩,
   ⟨0, 0, false, false, false, false⟩,
   ⟨0, 0, false, false, false, false⟩]

/-- The round metadata of simulate_table_round players1 cfg1 0 rand1. -/
def meta1 : RoundMeta := ⟨some 0, true, true, true, false⟩

/-- The per-seat results of simulate_table_round players1 cfg2 0 rand1:
with penalty_deal_in 3 the deal-in transfer is 6 although the score is 2. -/
def res2 : List RoundOutcome :=
  [⟨6, 1, true, true, false, false⟩,
   ⟨-6, 0, false, false, true, false⟩,
   ⟨0, 0, false, false, false, false⟩,
   ⟨0, 0, false, false, false, false⟩]

/-- The per-seat results of the drawn round of rand3. -/
def res3 : List RoundOutcome :=
  [⟨0, 0, false, false, false, false⟩,
   ⟨0, 0, false, false, false, false⟩,
   ⟨0, 0, false, false, false, false⟩,
   ⟨0, 0, false, false, false, false⟩]

/-- The round metadata of the drawn round of rand3: no winner, but the
dealer was ready, so the dealer continues. -/
def meta3 : RoundMeta := ⟨none, false, true, true, true⟩

/-- The per-seat results of simulate_table_round players6 cfg1 0 rand6:
the NeutralPolicy seat wins a 0-fan hand by self-draw. -/
def res6 : List RoundOutcome :=
  [⟨3, 0, true, false, false, false⟩,
   ⟨-1, 0, false, false, false, false⟩,
   ⟨-1, 0, false, false, false, false⟩,
   ⟨-1, 0, false, false, false, false⟩]

/-- The round metadata of simulate_table_round players6 cfg1 0 rand6. -/
def meta6 : RoundMeta := ⟨some 0, true, true, true, false⟩

/-- The defensive strategy with fan_min 1, in the single-argument shape
used by simulation.simulate_round. -/
def defStrat1 : ℕ → Bool := fun f => defensive_strategy f 1

/-- Single-player draws: the hand does not complete. -/
def rr1 : RoundRand := ⟨0, 0, 1, 0, 0, 0, 0, 0⟩

/-- Single-player draws: a completed 1-fan hand whose deal-in draw fires,
yielding a deal-in win. -/
def rr2 : RoundRand := ⟨1, 1, 0, 1, 0, 0, 0, 0⟩

/-
Concrete evaluation lemmas shared by the counterexamples and witnesses.
The ambient rationals block kernel evaluation, so these are settled by
simp and norm_num instead of decide.
-/

lemma range_four : List.range 4 = [0, 1, 2, 3] := by decide

lemma losersOf_zero : losersOf 0 = [1, 2, 3] := by decide

lemma numDef_players1 : numDef players1 = 4 := by decide

lemma numDef_players6 : numDef players6 = 3 := by decide

lemma seat1_0 : seatData players1 rand1 0 = ⟨true, true, 1, 7 / 10, 1⟩ := by
  unfold seatData
  rw [numDef_players1]
  norm_num [mkSeatData, players1, rand1, adjust_fan_growth_for_composition,
    compute_total_fan, defensive_strategy, Nat.min_def]

lemma seat1_1 : seatData players1 rand1 1 = ⟨false, false, 0, 7 / 10, 0⟩ := by
  unfold seatData
  rw [numDef_players1]
  norm_num [mkSeatData, players1, rand1]

lemma seat1_2 : seatData players1 rand1 2 = ⟨false, false, 0, 0, 0⟩ := by
  unfold seatData
  rw [numDef_players1]
  norm_num [mkSeatData, players1, rand1]

lemma seat1_3 : seatData players1 rand1 3 = ⟨false, false, 0, 0, 0⟩ := by
  unfold seatData
  rw [numDef_players1]
  norm_num [mkSeatData, players1, rand1]

lemma elig1 : eligibleWinners players1 rand1 = [0] := by
  norm_num [eligibleWinners, range_four, List.filter, seat1_0, seat1_1, seat1_2, seat1_3]

lemma pickw1 : pickWinner players1 rand1 = 0 := by
  norm_num [pickWinner, elig1, List.getD]

lemma pickl_zero : pickLoser 0 0 = 1 := by decide

lemma rand1_uDeal : rand1.uDeal = 0 := rfl

lemma rand1_loserPick : rand1.loserPick = 0 := rfl

lemma losersR1 : losersMapR players1 rand1 = [7 / 10, 0, 0] := by
  simp [losersMapR, pickw1, losersOf_zero, seat1_1, seat1_2, seat1_3]

lemma dealin1 : dealInResults players1 cfg1 rand1 = res1 := by
  norm_num [dealInResults, range_four, pickw1, pickl_zero, rand1_loserPick,
    winnerScore, seat1_0, seat1_1, seat1_2, seat1_3, compute_score, cfg1,
    compute_loser_cost, missedFlag, res1]

lemma winmeta1 : winMeta players1 rand1 0 = meta1 := by
  norm_num [winMeta, pickw1, seat1_0, meta1, DEALER_READY_THRESHOLD]

lemma str1 : simulate_table_round players1 cfg1 0 rand1 = some (res1, meta1) := by
  norm_num [simulate_table_round, elig1, pickw1, seat1_0, rand1_uDeal, losersR1,
    loser_weight_dist, dealin1, winmeta1]

lemma run1 : runTableRounds players1 cfg1 [rand1] 0 = some [(res1, meta1)] := by
  simp [runTableRounds, str1]

lemma dealin2 : dealInResults players1 cfg2 rand1 = res2 := by
  norm_num [dealInResults, range_four, pickw1, pickl_zero, rand1_loserPick,
    winnerScore, seat1_0, seat1_1, seat1_2, seat1_3, compute_score, cfg2,
    compute_loser_cost, missedFlag, res2]

lemma str2 : simulate_table_round players1 cfg2 0 rand1 = some (res2, meta1) := by
  norm_num [simulate_table_round, elig1, pickw1, seat1_0, rand1_uDeal, losersR1,
    loser_weight_dist, dealin2, winmeta1]

lemma seat3_0 : seatData players1 rand3 0 = ⟨false, false, 0, 0, 7 / 10⟩ := by
  unfold seatData
  rw [numDef_players1]
  norm_num [mkSeatData, players1, rand3]

lemma seat3_1 : seatData players1 rand3 1 = ⟨false, false, 0, 0, 0⟩ := by
  unfold seatData
  rw [numDef_players1]
  norm_num [mkSeatData, players1, rand3]

lemma seat3_2 : seatData players1 rand3 2 = ⟨false, false, 0, 0, 0⟩ := by
  unfold seatData
  rw [numDef_players1]
  norm_num [mkSeatData, players1, rand3]

lemma seat3_3 : seatData players1 rand3 3 = ⟨false, false, 0, 0, 0⟩ := by
  unfold seatData
  rw [numDef_players1]
  norm_num [mkSeatData, players1, rand3]

lemma elig3 : eligibleWinners players1 rand3 = [] := by
  norm_num [eligibleWinners, range_four, List.filter, seat3_0, seat3_1, seat3_2, seat3_3]

lemma drawres3 : drawResults players1 rand3 = res3 := by
  norm_num [drawResults, range_four, missedFlag, seat3_0, seat3_1, seat3_2, seat3_3, res3]

lemma drawmeta3 : drawMeta players1 rand3 0 = meta3 := by
  norm_num [drawMeta, dealerReady, seat3_0, meta3, DEALER_READY_THRESHOLD]

lemma str3 : simulate_table_round players1 cfg1 0 rand3 = some (res3, meta3) := by
  norm_num [simulate_table_round, elig3, drawres3, drawmeta3]

lemma seat5_0 : seatData players1 rand5 0 = ⟨true, true, 1, 7 / 10, 1⟩ := by
  unfold seatData
  rw [numDef_players1]
  norm_num [mkSeatData, players1, rand5, adjust_fan_growth_for_composition,
    compute_total_fan, defensive_strategy, Nat.min_def]

lemma seat5_1 : seatData players1 rand5 1 = ⟨false, false, 0, 0, 0⟩ := by
  unfold seatData
  rw [numDef_players1]
  norm_num [mkSeatData, players1, rand5]

lemma seat5_2 : seatData players1 rand5 2 = ⟨false, false, 0, 0, 0⟩ := by
  unfold seatData
  rw [numDef_players1]
  norm_num [mkSeatData, players1, rand5]

lemma seat5_3 : seatData players1 rand5 3 = ⟨false, false, 0, 0, 0⟩ := by
  unfold seatData
  rw [numDef_players1]
  norm_num [mkSeatData, players1, rand5]

lemma elig5 : eligibleWinners players1 rand5 = [0] := by
  norm_num [eligibleWinners, range_four, List.filter, seat5_0, seat5_1, seat5_2, seat5_3]

lemma pickw5 : pickWinner players1 rand5 = 0 := by
  norm_num [pickWinner, elig5, List.getD]

lemma rand5_uDeal : rand5.uDeal = 0 := rfl

lemma losersR5 : losersMapR players1 rand5 = [0, 0, 0] := by
  simp [losersMapR, pickw5, losersOf_zero, seat5_1, seat5_2, seat5_3]

lemma str5 : simulate_table_round players1 cfg1 0 rand5 = none := by
  norm_num [simulate_table_round, elig5, pickw5, seat5_0, rand5_uDeal, losersR5,
    loser_weight_dist]

lemma seat6_0 : seatData players6 rand6 0 = ⟨true, true, 0, 31 / 40, 1⟩ := by
  unfold seatData
  rw [numDef_players6]
  norm_num [mkSeatData, players6, rand6, adjust_fan_growth_for_composition,
    compute_total_fan, NeutralPolicy.shouldHu, Nat.min_def]

lemma seat6_1 : seatData players6 rand6 1 = ⟨false, false, 0, 0, 0⟩ := by
  unfold seatData
  rw [numDef_players6]
  norm_num [mkSeatData, players6, rand6]

lemma seat6_2 : seatData players6 rand6 2 = ⟨false, false, 0, 0, 0⟩ := by
  unfold seatData
  rw [numDef_players6]
  norm_num [mkSeatData, players6, rand6]

lemma seat6_3 : seatData players6 rand6 3 = ⟨false, false, 0, 0, 0⟩ := by
  unfold seatData
  rw [numDef_players6]
  norm_num [mkSeatData, players6, rand6]

lemma elig6 : eligibleWinners players6 rand6 = [0] := by
  norm_num [eligibleWinners, range_four, List.filter, seat6_0, seat6_1, seat6_2, seat6_3]

lemma pickw6 : pickWinner players6 rand6 = 0 := by
  norm_num [pickWinner, elig6, List.getD]

lemma rand6_uDeal : rand6.uDeal = 1 := rfl

lemma selfdraw6 : selfDrawResults players6 cfg1 rand6 = res6 := by
  norm_num [selfDrawResults, range_four, pickw6, winnerScore, seat6_0, seat6_1,
    seat6_2, seat6_3, compute_score, cfg1, compute_loser_cost, missedFlag, res6]

lemma winmeta6 : winMeta players6 rand6 0 = meta6 := by
  norm_num [winMeta, pickw6, seat6_0, meta6, DEALER_READY_THRESHOLD]

lemma str6 : simulate_table_round players6 cfg1 0 rand6 = some (res6, meta6) := by
  norm_num [simulate_table_round, elig6, pickw6, seat6_0, rand6_uDeal, selfdraw6,
    winmeta6]


/-
Structural lemmas about the table round resolver.
-/

lemma mem_eligible_lt_four {players : ℕ → Player} {rand : TableRand} {i : ℕ}
    (h : i ∈ eligibleWinners players rand) : i < 4 := by
  unfold eligibleWinners at h
  exact List.mem_range.mp (List.mem_filter.mp h).1

lemma mem_eligible_accepts {players : ℕ → Player} {rand : TableRand} {i : ℕ}
    (h : i ∈ eligibleWinners players rand) :
    (seatData players rand i).strategy_accepts = true := by
  unfold eligibleWinners at h
  simpa using (List.mem_filter.mp h).2

lemma pickWinner_mem {players : ℕ → Player} {rand : TableRand}
    (h : eligibleWinners players rand ≠ []) :
    pickWinner players rand ∈ eligibleWinners players rand := by
  have hlen : 0 < (eligibleWinners players rand).length := List.length_pos.mpr h
  unfold pickWinner
  split
  · rw [List.getD_eq_getElem _ _ hlen]
    exact List.getElem_mem hlen
  · have hmod : rand.winnerPick % (eligibleWinners players rand).length
        < (eligibleWinners players rand).length := Nat.mod_lt _ hlen
    rw [List.getD_eq_getElem _ _ hmod]
    exact List.getElem_mem hmod

lemma pickWinner_lt {players : ℕ → Player} {rand : TableRand}
    (h : eligibleWinners players rand ≠ []) : pickWinner players rand < 4 :=
  mem_eligible_lt_four (pickWinner_mem h)

lemma pickWinner_accepts {players : ℕ → Player} {rand : TableRand}
    (h : eligibleWinners players rand ≠ []) :
    (seatData players rand (pickWinner players rand)).strategy_accepts = true :=
  mem_eligible_accepts (pickWinner_mem h)

lemma losersOf_one : losersOf 1 = [0, 2, 3] := by decide

lemma losersOf_two : losersOf 2 = [0, 1, 3] := by decide

lemma losersOf_three : losersOf 3 = [0, 1, 2] := by decide

lemma pickLoser_ne_and_lt {w : ℕ} (hw : w < 4) (pick : ℕ) :
    pickLoser w pick ≠ w ∧ pickLoser w pick < 4 := by
  have h3 : pick % 3 = 0 ∨ pick % 3 = 1 ∨ pick % 3 = 2 := by omega
  interval_cases w <;>
    rcases h3 with h3 | h3 | h3 <;>
      simp [pickLoser, losersOf_zero, losersOf_one, losersOf_two, losersOf_three, h3,
        List.getD]

lemma simulate_table_round_cases {players : ℕ → Player} {cfg : SimCfg} {d : ℕ}
    {rand : TableRand} {res : List RoundOutcome} {meta : RoundMeta}
    (h : simulate_table_round players cfg d rand = some (res, meta)) :
    (eligibleWinners players rand = [] ∧ res = drawResults players rand
      ∧ meta = drawMeta players rand d) ∨
    (eligibleWinners players rand ≠ [] ∧ res = dealInResults players cfg rand
      ∧ meta = winMeta players rand d) ∨
    (eligibleWinners players rand ≠ [] ∧ res = selfDrawResults players cfg rand
      ∧ meta = winMeta players rand d) := by
  unfold simulate_table_round at h
  split at h
  · rename_i hempty
    rw [Option.some.injEq, Prod.mk.injEq] at h
    exact Or.inl ⟨hempty, h.1.symm, h.2.symm⟩
  · rename_i hempty
    split at h
    · split at h
      · exact absurd h (by simp)
      · rw [Option.some.injEq, Prod.mk.injEq] at h
        exact Or.inr (Or.inl ⟨hempty, h.1.symm, h.2.symm⟩)
    · rw [Option.some.injEq, Prod.mk.injEq] at h
      exact Or.inr (Or.inr ⟨hempty, h.1.symm, h.2.symm⟩)

lemma getD_map_range4 (f : ℕ → RoundOutcome) {i : ℕ} (hi : i < 4) :
    ((List.range 4).map f).getD i default = f i := by
  have hlen : i < ((List.range 4).map f).length := by simpa using hi
  rw [List.getD_eq_getElem _ _ hlen]
  simp

lemma getD_map_range4_ge (f : ℕ → RoundOutcome) {i : ℕ} (hi : 4 ≤ i) :
    ((List.range 4).map f).getD i default = default := by
  apply List.getD_eq_default
  simpa using hi

lemma range4_sum_expand (f : ℕ → ℚ) :
    (((List.range 4).map f)).sum = f 0 + f 1 + f 2 + f 3 := by
  rw [range_four]
  simp [List.sum_cons, add_assoc]

lemma dealInResults_profit_sum (players : ℕ → Player) (cfg : SimCfg) (rand : TableRand)
    (hne : eligibleWinners players rand ≠ []) :
    ((dealInResults players cfg rand).map (fun o => o.profit)).sum = 0 := by
  have hw : pickWinner players rand < 4 := pickWinner_lt hne
  have hl : pickLoser (pickWinner players rand) rand.loserPick < 4 :=
    (pickLoser_ne_and_lt hw rand.loserPick).2
  unfold dealInResults
  rw [List.map_map, range4_sum_expand]
  simp only [Function.comp]
  set w := pickWinner players rand with hwdef
  set l := pickLoser w rand.loserPick with hldef
  interval_cases w <;> interval_cases l <;> norm_num

lemma selfDrawResults_profit_sum (players : ℕ → Player) (cfg : SimCfg) (rand : TableRand)
    (hne : eligibleWinners players rand ≠ []) :
    ((selfDrawResults players cfg rand).map (fun o => o.profit)).sum = 0 := by
  have hw : pickWinner players rand < 4 := pickWinner_lt hne
  unfold selfDrawResults
  rw [List.map_map, range4_sum_expand]
  simp only [Function.comp]
  set w := pickWinner players rand with hwdef
  interval_cases w <;> simp <;> ring

/-- C4: in every resolved table round (deal-in or self-draw), the four
per-seat profits sum to zero: the winner receives exactly the negated sum
of the losers' costs. -/
theorem C4_round_zero_sum (players : ℕ → Player) (cfg : SimCfg) (d : ℕ)
    (rand : TableRand) (res : List RoundOutcome) (meta : RoundMeta)
    (h : simulate_table_round players cfg d rand = some (res, meta))
    (hwin : meta.is_draw = false) :
    (res.map (fun o => o.profit)).sum = 0 := by
  rcases simulate_table_round_cases h with ⟨_, _, hm⟩ | ⟨hne, hres, _⟩ | ⟨hne, hres, _⟩
  · subst hm
    simp [drawMeta] at hwin
  · subst hres
    exact dealInResults_profit_sum players cfg rand hne
  · subst hres
    exact selfDrawResults_profit_sum players cfg rand hne

theorem C4_round_zero_sum_witness :
    meta1.is_draw = false ∧ (res1.map (fun o => o.profit)).sum = 0 :=
  ⟨rfl, C4_round_zero_sum players1 cfg1 0 rand1 res1 meta1 str1 rfl⟩

/-- C3 as stated is false: in a drawn round whose dealer seat was ready
(Q at least 0.6), the dealer seat is carried over unchanged although no
seat (in particular not the dealer seat) won the round. -/
theorem C3_dealer_continuation_cex :
    simulate_table_round players1 cfg1 0 rand3 = some (res3, meta3) ∧
    meta3.winner_index = none ∧ meta3.dealer_continues = true ∧
    nextDealer 0 meta3 4 = 0 :=
  ⟨str3, rfl, rfl, rfl⟩

/-- C3 amended: the dealer seat carried into the next round is unchanged
iff the dealer seat won the round, or the round was a draw and the dealer
seat was ready; in every other case it advances to (seat+1) mod 4, and it
always stays in [0, 4). -/
theorem C3_dealer_continuation (players : ℕ → Player) (cfg : SimCfg) (d : ℕ)
    (rand : TableRand) (res : List RoundOutcome) (meta : RoundMeta)
    (hd : d < 4)
    (h : simulate_table_round players cfg d rand = some (res, meta)) :
    (nextDealer d meta 4 = d ↔
      (meta.winner_index = some d ∨
        (meta.winner_index = none ∧ meta.dealer_ready = true))) ∧
    nextDealer d meta 4 < 4 := by
  have hmod : (d + 1) % 4 ≠ d := by omega
  have hmodlt : (d + 1) % 4 < 4 := by omega
  rcases simulate_table_round_cases h with ⟨_, _, hm⟩ | ⟨hne, _, hm⟩ | ⟨hne, _, hm⟩ <;>
    subst hm
  · by_cases hr : dealerReady players rand d = true
    · simp [nextDealer, drawMeta, hr, hd]
    · simp only [nextDealer, drawMeta] at *
      simp [hr, hmod, hmodlt, hd]
  all_goals {
    by_cases hwd : pickWinner players rand = d
    · simp [nextDealer, winMeta, hwd, hd]
    · simp only [nextDealer, winMeta] at *
      simp [hwd, hmod, hmodlt, hd, beq_iff_eq]
  }

theorem C3_dealer_continuation_witness :
    0 < 4 ∧
    simulate_table_round players1 cfg1 0 rand1 = some (res1, meta1) ∧
    ((nextDealer 0 meta1 4 = 0 ↔
      (meta1.winner_index = some 0 ∨
        (meta1.winner_index = none ∧ meta1.dealer_ready = true))) ∧
      nextDealer 0 meta1 4 < 4) :=
  ⟨by omega, str1,
    C3_dealer_continuation players1 cfg1 0 rand1 res1 meta1 (by omega) str1⟩


lemma sr1 : simulate_round defStrat1 cfg1 rr1 = ⟨0, 0, false, false, false, false⟩ := by
  norm_num [simulate_round, rr1]

lemma sr2 : simulate_round defStrat1 cfg2 rr2 = ⟨2, 1, true, true, false, false⟩ := by
  norm_num [simulate_round, rr2, defStrat1, defensive_strategy, compute_total_fan,
    compute_score, compute_winner_profit, cfg2, Nat.min_def]

lemma simulate_round_cases (s : ℕ → Bool) (cfg : SimCfg) (r : RoundRand)
    {o : RoundOutcome} (h : simulate_round s cfg r = o) :
    o = ⟨0, 0, false, false, false, false⟩ ∨
    (o = ⟨(if decide (r.uDeal < r.R) then
            compute_loser_cost
              (compute_score (compute_total_fan r.oppBaseFan r.oppKong 16) cfg.base_points)
              cfg.penalty_deal_in true
          else 0), 0, false, false, decide (r.uDeal < r.R), true⟩
      ∧ s (compute_total_fan r.baseFan r.kong 16) = false) ∨
    (o = ⟨compute_winner_profit
            (compute_score (compute_total_fan r.baseFan r.kong 16) cfg.base_points) false true,
          compute_total_fan r.baseFan r.kong 16, true, true, false, false⟩
      ∧ s (compute_total_fan r.baseFan r.kong 16) = true) ∨
    (o = ⟨compute_winner_profit
            (compute_score (compute_total_fan r.baseFan r.kong 16) cfg.base_points) true false,
          compute_total_fan r.baseFan r.kong 16, true, false, false, false⟩
      ∧ s (compute_total_fan r.baseFan r.kong 16) = true) := by
  unfold simulate_round at h
  split at h
  · exact Or.inl h.symm
  · split at h
    · rename_i hs
      exact Or.inr (Or.inl ⟨h.symm, hs⟩)
    · rename_i hs
      have hs' : s (compute_total_fan r.baseFan r.kong 16) = true := by
        revert hs
        simp
      split at h
      · exact Or.inr (Or.inr (Or.inl ⟨h.symm, hs'⟩))
      · exact Or.inr (Or.inr (Or.inr ⟨h.symm, hs'⟩))

lemma seatData_fan_pos (players : ℕ → Player) (rand : TableRand) (i : ℕ)
    (hacc : (seatData players rand i).strategy_accepts = true)
    (hz : ∀ risk : ℚ, (players i).strategy 0 risk = false) :
    0 < (seatData players rand i).fan := by
  unfold seatData mkSeatData at hacc ⊢
  split_ifs at hacc ⊢ with hc
  · dsimp only at hacc ⊢
    by_contra h0
    push_neg at h0
    have htf :
        compute_total_fan
          (adjust_fan_growth_for_composition (rand.seat i).baseFan (numDef players))
          (rand.seat i).kong 16 = 0 := Nat.le_zero.mp h0
    rw [htf] at hacc
    rw [hz] at hacc
    exact Bool.false_ne_true hacc

/-- C2 as stated is false: in the four-player resolver the deal-in winner
receives score * penalty_deal_in, not score. With fan 1, base_points 1 and
penalty_deal_in 3 the winner of the concrete deal-in round receives 6,
while the score is 2. -/
theorem C2_deal_in_winner_profit_cex :
    simulate_table_round players1 cfg2 0 rand1 = some (res2, meta1) ∧
    (res2.getD 0 default).won = true ∧
    (res2.getD 0 default).deal_in_as_winner = true ∧
    (res2.getD 0 default).fan = 1 ∧
    (res2.getD 0 default).profit = 6 ∧
    compute_score 1 cfg2.base_points = 2 ∧
    (res2.getD 0 default).profit ≠
      compute_score ((res2.getD 0 default).fan) cfg2.base_points := by
  refine ⟨str2, rfl, rfl, rfl, rfl, ?_, ?_⟩
  · norm_num [compute_score, cfg2]
  · norm_num [res2, List.getD, compute_score, cfg2]

/-- C2 amended: in the single-player resolver a deal-in win pays the
winner exactly the score (penalty-independent), but in the four-player
resolver the deal-in winner receives the negated loser cost, which is
score * penalty_deal_in. -/
theorem C2_deal_in_winner_profit (player_strategy : ℕ → Bool) (cfg : SimCfg)
    (r : RoundRand) (players : ℕ → Player) (d : ℕ) (tr : TableRand)
    (res : List RoundOutcome) (meta : RoundMeta) (o1 : RoundOutcome) (i : ℕ)
    (h1 : simulate_round player_strategy cfg r = o1)
    (hw1 : o1.deal_in_as_winner = true)
    (h : simulate_table_round players cfg d tr = some (res, meta))
    (hw : (res.getD i default).deal_in_as_winner = true) :
    o1.profit = compute_score o1.fan cfg.base_points ∧
    (res.getD i default).profit
      = compute_score ((res.getD i default).fan) cfg.base_points * cfg.penalty_deal_in := by
  constructor
  · rcases simulate_round_cases player_strategy cfg r h1 with
      ho | ⟨ho, _⟩ | ⟨ho, _⟩ | ⟨ho, _⟩ <;> subst ho
    · exact absurd hw1 (by simp)
    · exact absurd hw1 (by simp)
    · dsimp only
      simp [compute_winner_profit]
    · exact absurd hw1 (by simp)
  · rcases simulate_table_round_cases h with ⟨_, hres, _⟩ | ⟨hne, hres, _⟩ | ⟨_, hres, _⟩ <;>
      subst hres
    · by_cases hi : i < 4
      · rw [drawResults, getD_map_range4 _ hi] at hw
        exact absurd hw (by simp)
      · rw [drawResults, getD_map_range4_ge _ (by omega)] at hw
        exact absurd hw (by simp [default])
    · have hwlt : pickWinner players tr < 4 := pickWinner_lt hne
      have hlne : pickLoser (pickWinner players tr) tr.loserPick ≠ pickWinner players tr :=
        (pickLoser_ne_and_lt hwlt tr.loserPick).1
      by_cases hi : i < 4
      · rw [dealInResults, getD_map_range4 _ hi] at hw ⊢
        dsimp only at hw ⊢
        have hiw : i = pickWinner players tr := by simpa using hw
        subst hiw
        rw [if_neg (fun hh => hlne hh.symm), if_pos rfl, if_pos rfl]
        unfold winnerScore compute_loser_cost
        simp
      · rw [dealInResults, getD_map_range4_ge _ (by omega)] at hw
        exact absurd hw (by simp [default])
    · by_cases hi : i < 4
      · rw [selfDrawResults, getD_map_range4 _ hi] at hw
        exact absurd hw (by simp)
      · rw [selfDrawResults, getD_map_range4_ge _ (by omega)] at hw
        exact absurd hw (by simp [default])

theorem C2_deal_in_winner_profit_witness :
    (⟨2, 1, true, true, false, false⟩ : RoundOutcome).deal_in_as_winner = true ∧
    (res2.getD 0 default).deal_in_as_winner = true ∧
    ((⟨2, 1, true, true, false, false⟩ : RoundOutcome).profit
        = compute_score (⟨2, 1, true, true, false, false⟩ : RoundOutcome).fan cfg2.base_points ∧
      (res2.getD 0 default).profit
        = compute_score ((res2.getD 0 default).fan) cfg2.base_points * cfg2.penalty_deal_in) :=
  ⟨rfl, rfl,
    C2_deal_in_winner_profit defStrat1 cfg2 rr2 players1 0 rand1 res2 meta1
      ⟨2, 1, true, true, false, false⟩ 0 sr2 rfl str2 rfl⟩


/-- C6 as stated is false: a NeutralPolicy seat accepts a 0-fan hand when
its adjusted risk exceeds 0.4, so the table resolver can produce a
RoundOutcome with won = true and fan = 0. -/
theorem C6_outcome_invariants_cex :
    simulate_table_round players6 cfg1 0 rand6 = some (res6, meta6) ∧
    (res6.getD 0 default).won = true ∧
    (res6.getD 0 default).fan = 0 :=
  ⟨str6, rfl, rfl⟩

/-- C6 amended: the flag invariants hold unconditionally in both resolvers
(not won forces fan 0; a deal-in-winner flag forces won; a deal-in-loser
flag forces not won; the two deal-in flags never hold together), and
won forces fan > 0 exactly under the extra hypothesis that every strategy
in play rejects 0-fan hands, which threshold strategies with minimum 1
satisfy but NeutralPolicy does not. -/
theorem C6_outcome_invariants (player_strategy : ℕ → Bool) (cfg : SimCfg)
    (r : RoundRand) (players : ℕ → Player) (d : ℕ) (tr : TableRand)
    (res : List RoundOutcome) (meta : RoundMeta) (o1 o : RoundOutcome)
    (h1 : simulate_round player_strategy cfg r = o1)
    (h : simulate_table_round players cfg d tr = some (res, meta))
    (ho : o ∈ res)
    (hz1 : player_strategy 0 = false)
    (hz : ∀ (i : ℕ) (risk : ℚ), (players i).strategy 0 risk = false) :
    ((o1.won = false → o1.fan = 0) ∧
      (o1.deal_in_as_winner = true → o1.won = true) ∧
      (o1.deal_in_as_loser = true → o1.won = false) ∧
      (o1.deal_in_as_winner = true → o1.deal_in_as_loser = false) ∧
      (o1.won = true → 0 < o1.fan)) ∧
    ((o.won = false → o.fan = 0) ∧
      (o.deal_in_as_winner = true → o.won = true) ∧
      (o.deal_in_as_loser = true → o.won = false) ∧
      (o.deal_in_as_winner = true → o.deal_in_as_loser = false) ∧
      (o.won = true → 0 < o.fan)) := by
  constructor
  · rcases simulate_round_cases player_strategy cfg r h1 with
      ho1 | ⟨ho1, _⟩ | ⟨ho1, hs⟩ | ⟨ho1, hs⟩ <;> subst ho1
    · simp
    · simp
    · refine ⟨by simp, by simp, by simp, by simp, fun _ => ?_⟩
      dsimp only
      by_contra h0
      push_neg at h0
      rw [Nat.le_zero.mp h0, hz1] at hs
      exact Bool.false_ne_true hs
    · refine ⟨by simp, by simp, by simp, by simp, fun _ => ?_⟩
      dsimp only
      by_contra h0
      push_neg at h0
      rw [Nat.le_zero.mp h0, hz1] at hs
      exact Bool.false_ne_true hs
  · rcases simulate_table_round_cases h with ⟨_, hres, _⟩ | ⟨hne, hres, _⟩ | ⟨hne, hres, _⟩ <;>
      subst hres
    · rw [drawResults] at ho
      obtain ⟨i, _, rfl⟩ := List.mem_map.mp ho
      simp
    · rw [dealInResults] at ho
      obtain ⟨i, hmem, rfl⟩ := List.mem_map.mp ho
      have hwlt : pickWinner players tr < 4 := pickWinner_lt hne
      have hlne : pickLoser (pickWinner players tr) tr.loserPick ≠ pickWinner players tr :=
        (pickLoser_ne_and_lt hwlt tr.loserPick).1
      dsimp only
      refine ⟨?_, ?_, ?_, ?_, ?_⟩
      · intro hwon
        have hiw : i ≠ pickWinner players tr := by simpa using hwon
        simp [hiw]
      · intro hdiw
        simpa using hdiw
      · intro hdil
        have hil : i = pickLoser (pickWinner players tr) tr.loserPick := by simpa using hdil
        subst hil
        simpa using hlne
      · intro hdiw
        have hiw : i = pickWinner players tr := by simpa using hdiw
        subst hiw
        simpa using fun hh => hlne hh.symm
      · intro hwon
        have hiw : i = pickWinner players tr := by simpa using hwon
        subst hiw
        rw [if_pos rfl]
        exact seatData_fan_pos players tr _ (pickWinner_accepts hne) (hz _)
    · rw [selfDrawResults] at ho
      obtain ⟨i, hmem, rfl⟩ := List.mem_map.mp ho
      dsimp only
      refine ⟨?_, by simp, by simp, by simp, ?_⟩
      · intro hwon
        have hiw : i ≠ pickWinner players tr := by simpa using hwon
        simp [hiw]
      · intro hwon
        have hiw : i = pickWinner players tr := by simpa using hwon
        subst hiw
        rw [if_pos rfl]
        exact seatData_fan_pos players tr _ (pickWinner_accepts hne) (hz _)

theorem C6_outcome_invariants_witness :
    (defStrat1 0 = false) ∧
    (∀ (i : ℕ) (risk : ℚ), (players1 i).strategy 0 risk = false) ∧
    (⟨2, 1, true, true, false, false⟩ : RoundOutcome) ∈ res1 ∧
    ((((⟨0, 0, false, false, false, false⟩ : RoundOutcome).won = false →
        (⟨0, 0, false, false, false, false⟩ : RoundOutcome).fan = 0) ∧
      ((⟨0, 0, false, false, false, false⟩ : RoundOutcome).deal_in_as_winner = true →
        (⟨0, 0, false, false, false, false⟩ : RoundOutcome).won = true) ∧
      ((⟨0, 0, false, false, false, false⟩ : RoundOutcome).deal_in_as_loser = true →
        (⟨0, 0, false, false, false, false⟩ : RoundOutcome).won = false) ∧
      ((⟨0, 0, false, false, false, false⟩ : RoundOutcome).deal_in_as_winner = true →
        (⟨0, 0, false, false, false, false⟩ : RoundOutcome).deal_in_as_loser = false) ∧
      ((⟨0, 0, false, false, false, false⟩ : RoundOutcome).won = true →
        0 < (⟨0, 0, false, false, false, false⟩ : RoundOutcome).fan)) ∧
     (((⟨2, 1, true, true, false, false⟩ : RoundOutcome).won = false →
        (⟨2, 1, true, true, false, false⟩ : RoundOutcome).fan = 0) ∧
      ((⟨2, 1, true, true, false, false⟩ : RoundOutcome).deal_in_as_winner = true →
        (⟨2, 1, true, true, false, false⟩ : RoundOutcome).won = true) ∧
      ((⟨2, 1, true, true, false, false⟩ : RoundOutcome).deal_in_as_loser = true →
        (⟨2, 1, true, true, false, false⟩ : RoundOutcome).won = false) ∧
      ((⟨2, 1, true, true, false, false⟩ : RoundOutcome).deal_in_as_winner = true →
        (⟨2, 1, true, true, false, false⟩ : RoundOutcome).deal_in_as_loser = false) ∧
      ((⟨2, 1, true, true, false, false⟩ : RoundOutcome).won = true →
        0 < (⟨2, 1, true, true, false, false⟩ : RoundOutcome).fan))) :=
  ⟨rfl, fun _ _ => rfl, by simp [res1],
    C6_outcome_invariants defStrat1 cfg1 rr1 players1 0 rand1 res1 meta1
      ⟨0, 0, false, false, false, false⟩ ⟨2, 1, true, true, false, false⟩
      sr1 str1 (by simp [res1]) rfl (fun _ _ => rfl)⟩


lemma res1_getD_one : res1.getD 1 default = ⟨-2, 0, false, false, true, false⟩ := by
  simp [res1, List.getD]

lemma utility_neg_two :
    RoundOutcome.utility ⟨-2, 0, false, false, true, false⟩ = -Real.sqrt 2 - 1 / 2 := by
  unfold RoundOutcome.utility compute_utility
  have hx : (((-2 : ℚ)) : ℝ) = -2 := by norm_num
  rw [hx, if_neg (by norm_num), if_pos (by norm_num), abs_of_neg (by norm_num : (-2:ℝ) < 0)]
  norm_num

/-- C1 as stated is false for table sessions: the per-seat utility summary
of table._run_table adds the baseline to the unclamped utility sum, so a
seat that dealt in ends the session below the baseline. -/
theorem C1_table_utility_not_floored_cex :
    runTableRounds players1 cfg1 [rand1] 0 = some [(res1, meta1)] ∧
    tableSeatUtility 200 [(res1, meta1)] 1 < 200 := by
  refine ⟨run1, ?_⟩
  have h2 : (0:ℝ) ≤ Real.sqrt 2 := Real.sqrt_nonneg 2
  unfold tableSeatUtility
  rw [List.map_cons, List.map_nil, List.sum_cons, List.sum_nil]
  dsimp only
  rw [res1_getD_one, utility_neg_two]
  linarith

/-- C1 amended: the single-player reducer run_simulation reports
baseline + max(0, sum of per-round utilities), hence never less than the
baseline; the table reducer _run_table reports baseline plus the plain
per-seat utility sum with no clamp at zero. -/
theorem C1_session_utility_reduction (player_strategy : ℕ → Bool) (cfg : SimCfg)
    (rands : List RoundRand) (baseline : ℝ)
    (rounds : List (List RoundOutcome × RoundMeta)) (i : ℕ) :
    run_simulation_utility player_strategy cfg rands baseline
      = baseline +
          max 0 ((rands.map (fun r => (simulate_round player_strategy cfg r).utility)).sum) ∧
    baseline ≤ run_simulation_utility player_strategy cfg rands baseline ∧
    tableSeatUtility baseline rounds i
      = baseline + (rounds.map (fun rm => (rm.1.getD i default).utility)).sum := by
  refine ⟨rfl, ?_, rfl⟩
  unfold run_simulation_utility
  linarith [le_max_left (0:ℝ)
    ((rands.map (fun r => (simulate_round player_strategy cfg r).utility)).sum)]

/-- C5 as stated is false: the loser selection has no uniform fallback.
When the three non-winning seats all carry adjusted risk 0 the loser
weight vector is rejected (numpy raises on the resulting invalid
probabilities), and the whole round fails. -/
theorem C5_weighted_selection_cex :
    simulate_table_round players1 cfg1 0 rand5 = none ∧
    losersMapR players1 rand5 = [0, 0, 0] ∧
    loser_weight_dist [0, 0, 0] = none :=
  ⟨str5, losersR5, by norm_num [loser_weight_dist]⟩

/-- C5 amended: the winner selection is total, with a uniform fallback
when the fan weights sum to zero or less; the loser selection normalises
by the risk sum with no fallback and fails exactly when that sum is zero. -/
theorem C5_weighted_selection (ws rs : List ℚ) (h0 : ws.sum ≤ 0) (hr : rs.sum = 0) :
    winner_weight_dist ws = List.replicate ws.length (1 / (ws.length : ℚ)) ∧
    (∀ vs : List ℚ, (winner_weight_dist vs).length = vs.length) ∧
    loser_weight_dist rs = none ∧
    (∀ vs : List ℚ, vs.sum ≠ 0 →
      loser_weight_dist vs = some (vs.map (fun w => w / vs.sum))) := by
  refine ⟨?_, ?_, ?_, ?_⟩
  · unfold winner_weight_dist
    rw [if_pos h0]
  · intro vs
    unfold winner_weight_dist
    split
    · simp
    · simp
  · unfold loser_weight_dist
    rw [if_pos hr]
  · intro vs hvs
    unfold loser_weight_dist
    rw [if_neg hvs]

theorem C5_weighted_selection_witness :
    ([(0:ℚ)].sum ≤ 0) ∧ ([(0:ℚ), 0, 0].sum = 0) ∧
    (winner_weight_dist [(0:ℚ)] = List.replicate [(0:ℚ)].length (1 / ([(0:ℚ)].length : ℚ)) ∧
      (∀ vs : List ℚ, (winner_weight_dist vs).length = vs.length) ∧
      loser_weight_dist [(0:ℚ), 0, 0] = none ∧
      (∀ vs : List ℚ, vs.sum ≠ 0 →
        loser_weight_dist vs = some (vs.map (fun w => w / vs.sum)))) :=
  ⟨by simp, by simp,
    C5_weighted_selection [0] [0, 0, 0] (by simp) (by simp)⟩

lemma sqrt_signed_strict_mono (p q : ℝ) (hpq : p < q) (hs : 0 < p ∨ q < 0) :
    (if 0 < p then Real.sqrt p else if p < 0 then -Real.sqrt |p| else 0)
      < (if 0 < q then Real.sqrt q else if q < 0 then -Real.sqrt |q| else 0) := by
  rcases hs with hp | hq
  · have hq0 : 0 < q := lt_trans hp hpq
    rw [if_pos hp, if_pos hq0]
    exact Real.sqrt_lt_sqrt (le_of_lt hp) hpq
  · have hp0 : p < 0 := lt_trans hpq hq
    rw [if_neg (not_lt.mpr (le_of_lt hp0)), if_pos hp0,
        if_neg (not_lt.mpr (le_of_lt hq)), if_pos hq]
    rw [abs_of_neg hp0, abs_of_neg hq]
    have h1 : Real.sqrt (-q) < Real.sqrt (-p) :=
      Real.sqrt_lt_sqrt (by linarith) (by linarith)
    linarith

lemma sqrt_hundred : Real.sqrt 100 = 10 := by
  rw [show (100:ℝ) = 10 ^ 2 by norm_num, Real.sqrt_sq (by norm_num : (0:ℝ) ≤ 10)]

/-- C7: compute_utility is the signed square root of the profit minus 0.2
for a missed hand and 0.5 for dealing in as loser; its concrete values at
profit 100 are 10, 9.8 and 9.5; and for fixed flags it is strictly
increasing in the profit separately on positive and on negative profits. -/
theorem C7_compute_utility_spec (p q : ℝ) (m d : Bool) (hpq : p < q)
    (hs : 0 < p ∨ q < 0) :
    compute_utility p m d < compute_utility q m d ∧
    compute_utility p m d =
      (if 0 < p then Real.sqrt p else if p < 0 then -Real.sqrt (-p) else 0)
        - 0.2 * (if m then 1 else 0) - 0.5 * (if d then 1 else 0) ∧
    compute_utility 100 false false = 10 ∧
    compute_utility 100 true false = 9.8 ∧
    compute_utility 100 false true = 9.5 := by
  refine ⟨?_, ?_, ?_, ?_, ?_⟩
  · unfold compute_utility
    have hmono := sqrt_signed_strict_mono p q hpq hs
    rcases m <;> rcases d <;> simp <;> linarith
  · unfold compute_utility
    have habs : (if 0 < p then Real.sqrt p else if p < 0 then -Real.sqrt |p| else 0)
        = (if 0 < p then Real.sqrt p else if p < 0 then -Real.sqrt (-p) else 0) := by
      by_cases h1 : 0 < p
      · simp [h1]
      · by_cases h2 : p < 0
        · simp [h1, h2, abs_of_neg h2]
        · simp [h1, h2]
    rw [habs]
    rcases m <;> rcases d <;> simp
  · unfold compute_utility
    rw [if_pos (by norm_num : (0:ℝ) < 100)]
    simp [sqrt_hundred]
  · unfold compute_utility
    rw [if_pos (by norm_num : (0:ℝ) < 100)]
    simp [sqrt_hundred]
    norm_num
  · unfold compute_utility
    rw [if_pos (by norm_num : (0:ℝ) < 100)]
    simp [sqrt_hundred]
    norm_num

theorem C7_compute_utility_spec_witness :
    ((1:ℝ) < 4) ∧ (0 < (1:ℝ) ∨ (4:ℝ) < 0) ∧
    (compute_utility 1 false false < compute_utility 4 false false ∧
      compute_utility 1 false false =
        (if 0 < (1:ℝ) then Real.sqrt 1 else if (1:ℝ) < 0 then -Real.sqrt (-1) else 0)
          - 0.2 * (if false then 1 else 0) - 0.5 * (if false then 1 else 0) ∧
      compute_utility 100 false false = 10 ∧
      compute_utility 100 true false = 9.8 ∧
      compute_utility 100 false true = 9.5) :=
  ⟨by norm_num, Or.inl (by norm_num),
    C7_compute_utility_spec 1 4 false false (by norm_num) (Or.inl (by norm_num))⟩

/-- C8: adjust_risk_for_composition multiplies the base risk by
1 - 0.3 * (num_def/4); its concrete values at 0.5 are 0.5 and 0.35; for a
positive base risk it is strictly decreasing in the number of defensive
players; and the table resolver applies exactly this scaling to every
seat's sampled base risk. -/
theorem C8_adjust_risk_spec (R : ℚ) (n m : ℕ) (hR : 0 < R) (hnm : n < m) :
    adjust_risk_for_composition R n = R * (1 - 0.3 * ((n : ℚ) / 4)) ∧
    adjust_risk_for_composition 0.5 0 = 0.5 ∧
    adjust_risk_for_composition 0.5 4 = 0.35 ∧
    adjust_risk_for_composition R m < adjust_risk_for_composition R n ∧
    (∀ (players : ℕ → Player) (num_def : ℕ) (rand : TableRand) (i : ℕ),
      (mkSeatData players num_def rand i).R
        = adjust_risk_for_composition (rand.seat i).baseR num_def) := by
  refine ⟨?_, ?_, ?_, ?_, ?_⟩
  · unfold adjust_risk_for_composition
    ring_nf
  · norm_num [adjust_risk_for_composition]
  · norm_num [adjust_risk_for_composition]
  · unfold adjust_risk_for_composition
    have hc : (n : ℚ) < (m : ℚ) := by exact_mod_cast hnm
    have hfac : 1 - ((m : ℚ) / 4) * (3 / 10) < 1 - ((n : ℚ) / 4) * (3 / 10) := by linarith
    exact mul_lt_mul_of_pos_left hfac hR
  · intro players num_def rand i
    unfold mkSeatData adjust_risk_for_composition
    split <;> rfl

theorem C8_adjust_risk_spec_witness :
    (0 < (0.5 : ℚ)) ∧ (0 < 4) ∧
    (adjust_risk_for_composition 0.5 0 = 0.5 * (1 - 0.3 * ((0 : ℚ) / 4)) ∧
      adjust_risk_for_composition 0.5 0 = 0.5 ∧
      adjust_risk_for_composition 0.5 4 = 0.35 ∧
      adjust_risk_for_composition 0.5 4 < adjust_risk_for_composition 0.5 0 ∧
      (∀ (players : ℕ → Player) (num_def : ℕ) (rand : TableRand) (i : ℕ),
        (mkSeatData players num_def rand i).R
          = adjust_risk_for_composition (rand.seat i).baseR num_def)) :=
  ⟨by norm_num, by norm_num,
    C8_adjust_risk_spec 0.5 0 4 (by norm_num) (by norm_num)⟩

/-- C9: NeutralPolicy is reproducible — two instances built from the same
seed are the same deterministic state, so they yield identical decision
sequences on identical call sequences — and each call accepts when
risk > 0.4, else accepts when fan is at least 1, and otherwise accepts
exactly when the next private draw is at least 0.2 (rejecting exactly when
that draw is below 0.2). -/
theorem C9_neutral_policy_spec (gen : ℕ → ℕ → ℚ) (seed : ℕ) (calls : List (ℕ × ℚ))
    (p : NeutralPolicy) (fan : ℕ) (risk : ℚ) :
    (NeutralPolicy.ofSeed gen seed).decisions calls
      = (NeutralPolicy.ofSeed gen seed).decisions calls ∧
    (2 / 5 < risk → (p.shouldHu fan risk).1 = true) ∧
    (risk ≤ 2 / 5 → 1 ≤ fan → (p.shouldHu fan risk).1 = true) ∧
    (risk ≤ 2 / 5 → fan = 0 →
      ((p.shouldHu fan risk).1 = false ↔ p.stream p.pos < 1 / 5)) := by
  refine ⟨rfl, ?_, ?_, ?_⟩
  · intro h
    unfold NeutralPolicy.shouldHu
    rw [if_pos h]
  · intro h1 h2
    unfold NeutralPolicy.shouldHu
    rw [if_neg (not_lt.mpr h1), if_pos h2]
  · intro h1 h2
    subst h2
    unfold NeutralPolicy.shouldHu
    rw [if_neg (not_lt.mpr h1), if_neg (by omega)]
    simp [not_le]

theorem C9_neutral_policy_spec_witness :
    ((2 / 5 : ℚ) < 1 / 2) ∧
    ((⟨fun _ => 0, 0⟩ : NeutralPolicy).shouldHu 0 (1 / 2)).1 = true ∧
    ((⟨fun _ => 0, 0⟩ : NeutralPolicy).shouldHu 2 (1 / 5)).1 = true ∧
    (((⟨fun _ => 0, 0⟩ : NeutralPolicy).shouldHu 0 (1 / 5)).1 = false ↔
      (⟨fun _ => 0, 0⟩ : NeutralPolicy).stream 0 < 1 / 5) :=
  ⟨by norm_num,
   (C9_neutral_policy_spec (fun _ _ => 0) 0 [] ⟨fun _ => 0, 0⟩ 0 (1 / 2)).2.1 (by norm_num),
   (C9_neutral_policy_spec (fun _ _ => 0) 0 [] ⟨fun _ => 0, 0⟩ 2 (1 / 5)).2.2.1
     (by norm_num) (by omega),
   (C9_neutral_policy_spec (fun _ _ => 0) 0 [] ⟨fun _ => 0, 0⟩ 0 (1 / 5)).2.2.2
     (by norm_num) rfl⟩

/-- C10: for nonnegative score and penalty multiplier the winner profit is
nonnegative (positive whenever the score is), equals score*3 on self-draw,
score on deal-in, and score*3 on the misuse fallback; compute_score is
positive for base_points >= 1; and the loser cost is never positive. -/
theorem C10_scoring_guarantees (score pen b : ℚ) (fan : ℕ) (s d l : Bool)
    (hs : 0 ≤ score) (hp : 0 ≤ pen) (hb : 1 ≤ b) :
    0 ≤ compute_winner_profit score s d ∧
    (0 < score → 0 < compute_winner_profit score s d) ∧
    compute_winner_profit score true d = score * 3 ∧
    compute_winner_profit score false true = score ∧
    compute_winner_profit score false false = score * 3 ∧
    0 < compute_score fan b ∧
    compute_loser_cost score pen l ≤ 0 := by
  have hb0 : (0:ℚ) < b := by linarith
  have hpow : (0:ℚ) < 2 ^ fan := pow_pos (by norm_num) fan
  refine ⟨?_, ?_, ?_, ?_, ?_, ?_, ?_⟩
  · rcases s <;> rcases d <;> simp [compute_winner_profit] <;> nlinarith
  · intro h
    rcases s <;> rcases d <;> simp [compute_winner_profit] <;> nlinarith
  · simp [compute_winner_profit]
  · simp [compute_winner_profit]
  · simp [compute_winner_profit]
  · exact mul_pos hb0 hpow
  · rcases l <;> simp [compute_loser_cost] <;> nlinarith

theorem C10_scoring_guarantees_witness :
    ((0:ℚ) ≤ 2) ∧ ((0:ℚ) ≤ 3) ∧ ((1:ℚ) ≤ 1) ∧
    (0 ≤ compute_winner_profit 2 false true ∧
      (0 < (2:ℚ) → 0 < compute_winner_profit 2 false true) ∧
      compute_winner_profit 2 true true = 2 * 3 ∧
      compute_winner_profit 2 false true = 2 ∧
      compute_winner_profit 2 false false = 2 * 3 ∧
      0 < compute_score 1 1 ∧
      compute_loser_cost 2 3 true ≤ 0) :=
  ⟨by norm_num, by norm_num, by norm_num,
    C10_scoring_guarantees 2 3 1 1 false true true (by norm_num) (by norm_num) (by norm_num)⟩

end MahjongSim
